import Mathlib

/-!
Verification development for the MarcSLM control system core.

Shallow embedding of the parts of the source the checked properties
concern:
* the slice-file data model and streaming reader
  (src/io/readSlices.h, src/io/streamingmarcreader.cpp),
* the command-block builder (src/io/rtccommandblock.cpp,
  src/controllers/scanstreamingmanager.cpp),
* the process-level state machine (src/controllers/processcontroller.cpp),
* the PLC client (src/opcserver/opcserverua.cpp).

Modelling conventions: C++ `float`/`double` values are modelled as exact
rationals (`ℚ`), machine integers as `ℕ`/`ℤ` (no arithmetic here ever
nears a wrap boundary), fallible reads as `Option`, and the effect of a
stateful method as an explicit function of a small state record, with
I/O outcomes supplied as oracle arguments and observable effects
(writes, sleeps, log lines, signal emissions) returned as data.
-/

set_option autoImplicit false
set_option maxRecDepth 8192

namespace marc

/-- `struct Point` (readSlices.h): pair of 32-bit floats in mm, modelled as ℚ. -/
structure Point where
  x : ℚ
  y : ℚ
deriving Repr, DecidableEq

/-- `struct Line` (readSlices.h). -/
structure Line where
  a : Point
  b : Point
deriving Repr, DecidableEq

/-- `struct GeometryTag` (readSlices.h): u32 fields modelled as ℕ. -/
structure GeometryTag where
  type : ℕ
  category : ℕ
  pointCount : ℕ
deriving Repr, DecidableEq

/-- `struct Circle` (readSlices.h). -/
structure Circle where
  tag : GeometryTag
  center : Point
  radius : ℚ
deriving Repr, DecidableEq

/-- `struct Hatch` (readSlices.h). -/
structure Hatch where
  tag : GeometryTag
  lines : List Line
deriving Repr, DecidableEq

/-- `struct Polyline` (readSlices.h). -/
structure Polyline where
  tag : GeometryTag
  points : List Point
deriving Repr, DecidableEq

/-- `struct Polygon` (readSlices.h). -/
structure Polygon where
  tag : GeometryTag
  points : List Point
deriving Repr, DecidableEq

/-- `struct Layer` (readSlices.h). -/
structure Layer where
  layerNumber : ℕ
  layerHeight : ℚ
  layerThickness : ℚ
  hatches : List Hatch
  polylines : List Polyline
  polygons : List Polygon
  support_circles : List Circle
deriving Repr, DecidableEq

/-- `RTCCommandBlock::Command::Type` (rtccommandblock.h). -/
inductive CommandType where
  | jump
  | mark
  | setPower
  | setSpeed
  | setFocus
  | delay
deriving Repr, DecidableEq

/-- `RTCCommandBlock::Command` (rtccommandblock.h): x, y are `long` device
units (ℤ); unused fields keep their C++ default initializers. -/
structure Command where
  type : CommandType
  x : ℤ := 0
  y : ℤ := 0
  paramValue : ℚ := 0
  delayMs : ℕ := 0
deriving Repr, DecidableEq

/-- `RTCCommandBlock::ParameterSegment` (rtccommandblock.h), with its C++
default member initializers. -/
structure ParameterSegment where
  startCmd : ℕ := 0
  endCmd : ℕ := 0
  buildStyleId : ℕ := 0
  laserPower : ℚ := 0
  laserSpeed : ℚ := 250
  jumpSpeed : ℚ := 1500
  laserMode : ℕ := 0
  laserFocus : ℚ := 1/10
deriving Repr, DecidableEq

/-- `struct RTCCommandBlock` (rtccommandblock.h). -/
structure RTCCommandBlock where
  layerNumber : ℕ := 0
  layerHeight : ℚ := 0
  layerThickness : ℚ := 0
  hatchCount : ℕ := 0
  polylineCount : ℕ := 0
  polygonCount : ℕ := 0
  commands : List Command := []
  parameterSegments : List ParameterSegment := []
deriving Repr, DecidableEq

/-- `RTCCommandBlock::getSegmentFor` (rtccommandblock.cpp): first segment
whose inclusive range contains `cmdIndex`. -/
def RTCCommandBlock.getSegmentFor (b : RTCCommandBlock) (cmdIndex : ℕ) :
    Option ParameterSegment :=
  b.parameterSegments.find? fun seg =>
    decide (seg.startCmd ≤ cmdIndex) && decide (cmdIndex ≤ seg.endCmd)

/-- `RTCCommandBlock::addParameterSegment` (rtccommandblock.cpp): the new
segment's `startCmd` is `back().endCmd + 1` (or `0` when the list is
empty); `endCmd` is left at its default `0`. -/
def RTCCommandBlock.addParameterSegment (b : RTCCommandBlock)
    (buildStyleId : ℕ) (laserPower laserSpeed jumpSpeed : ℚ)
    (laserMode : ℕ) (laserFocus : ℚ) : RTCCommandBlock :=
  let startCmd : ℕ :=
    match b.parameterSegments.getLast? with
    | none => 0
    | some back => back.endCmd + 1
  { b with parameterSegments := b.parameterSegments ++
      [{ startCmd := startCmd, endCmd := 0, buildStyleId := buildStyleId,
         laserPower := laserPower, laserSpeed := laserSpeed,
         jumpSpeed := jumpSpeed, laserMode := laserMode,
         laserFocus := laserFocus }] }

/-- `struct BuildStyle` (buildstyle.h) with its C++ default member
initializers; the string fields are omitted (never read by the builder). -/
structure BuildStyle where
  id : ℕ := 0
  laserId : ℕ := 1
  laserMode : ℕ := 0
  laserPower : ℚ := 0
  laserFocus : ℚ := 1/10
  laserSpeed : ℚ := 250
  jumpSpeed : ℚ := 1500
  hatchSpacing : ℚ := 1/10
  layerThickness : ℚ := 3/100
  pointDistance : ℚ := 1/20
  pointDelay : ℕ := 1
  pointExposureTime : ℕ := 100
  jumpDelay : ℚ := 1
deriving Repr, DecidableEq

/-- `BuildStyleLibrary` (buildstyle.h): the `unordered_map` from geometry
type id to `BuildStyle` is modelled as its lookup function; `getStyle`
returns the mapped style or null. -/
structure BuildStyleLibrary where
  styles : ℕ → Option BuildStyle

/-- `BuildStyleLibrary::getStyle` (buildstyle.cpp). -/
def BuildStyleLibrary.getStyle (lib : BuildStyleLibrary) (geometryTypeId : ℕ) :
    Option BuildStyle :=
  lib.styles geometryTypeId

/-- `ScanStreamingManager::CoordCalib` (scanstreamingmanager.h) with its
default member initializers. -/
structure CoordCalib where
  fieldSizeMM : ℚ := 1634/10
  maxBits : ℤ := 524287
  scaleCorrection : ℚ := 1
deriving Repr, DecidableEq

/-- `CoordCalib::bitsPerMM` (scanstreamingmanager.h). -/
def CoordCalib.bitsPerMM (c : CoordCalib) : ℚ :=
  2 * (c.maxBits : ℚ) / c.fieldSizeMM * c.scaleCorrection

/-- The default-constructed calibration used by `ScanStreamingManager`. -/
def defCalib : CoordCalib := {}

/-- `std::lround`: round to nearest, halfway cases away from zero. -/
def lround (q : ℚ) : ℤ :=
  if 0 ≤ q then ⌊q + 1/2⌋ else ⌈q - 1/2⌉

/-- `ScanStreamingManager::mmToBits` (scanstreamingmanager.cpp): scale by
`bitsPerMM`, clamp to `[-maxBits, maxBits]`, round with `lround`. -/
def mmToBits (calib : CoordCalib) (mm : ℚ) : ℤ :=
  let bits := mm * calib.bitsPerMM
  let mx : ℚ := (calib.maxBits : ℚ)
  let bits1 := if bits > mx then mx else bits
  let bits2 := if bits1 < -mx then -mx else bits1
  lround bits2

/-- A `Jump` command for point `p`, as built inline by the convert
functions in scanstreamingmanager.cpp. -/
def mkJump (calib : CoordCalib) (p : Point) : Command :=
  { type := .jump, x := mmToBits calib p.x, y := mmToBits calib p.y }

/-- A `Mark` command for point `p`. -/
def mkMark (calib : CoordCalib) (p : Point) : Command :=
  { type := .mark, x := mmToBits calib p.x, y := mmToBits calib p.y }

/-- Rewrites the range of the last parameter segment, as the tail of
`ScanStreamingManager::applyBuildStyle` does through
`parameterSegments.back()`. -/
def setLastSegmentRange (b : RTCCommandBlock) (s e : ℕ) : RTCCommandBlock :=
  match b.parameterSegments.getLast? with
  | none => b
  | some back =>
      { b with parameterSegments :=
          b.parameterSegments.dropLast ++ [{ back with startCmd := s, endCmd := e }] }

/-- `ScanStreamingManager::applyBuildStyle` (scanstreamingmanager.cpp):
null style or an empty command list emits nothing; otherwise a segment is
appended and its range overwritten to `[cmdStartIdx, commands.size()-1]`.
Note the guard tests the whole block's command count, not whether the
current geometry appended commands. -/
def applyBuildStyle (style : Option BuildStyle) (out : RTCCommandBlock)
    (cmdStartIdx : ℕ) : RTCCommandBlock :=
  match style with
  | none => out
  | some st =>
      if out.commands.length = 0 then out
      else
        let cmdEndIdx := out.commands.length - 1
        let pushed := out.addParameterSegment st.id st.laserPower st.laserSpeed
          st.jumpSpeed st.laserMode st.laserFocus
        setLastSegmentRange pushed cmdStartIdx cmdEndIdx

/-- Style resolution shared by the convert functions: the geometry type's
style, else the fallback style with id 8
(`if (!style) style = mBuildStyles.getStyle(8);`). -/
def resolveStyle (lib : BuildStyleLibrary) (geometryTypeId : ℕ) :
    Option BuildStyle :=
  match lib.getStyle geometryTypeId with
  | some st => some st
  | none => lib.getStyle 8

/-- `ScanStreamingManager::convertHatch` (scanstreamingmanager.cpp): per
line a Jump to `a` and a Mark to `b`; then `applyBuildStyle`.  The C++
catch clause is unreachable in exact arithmetic, so the `bool` result is
always true and is dropped here. -/
def convertHatch (calib : CoordCalib) (lib : BuildStyleLibrary) (h : Hatch)
    (out : RTCCommandBlock) : RTCCommandBlock :=
  let cmdStartIdx := out.commands.length
  let style := resolveStyle lib h.tag.type
  let out1 := { out with commands := out.commands ++
    (h.lines.flatMap fun line => [mkJump calib line.a, mkMark calib line.b]) }
  applyBuildStyle style out1 cmdStartIdx

/-- `ScanStreamingManager::convertPolyline`: empty point list returns
unchanged; otherwise a Jump to the first point and Marks to the rest. -/
def convertPolyline (calib : CoordCalib) (lib : BuildStyleLibrary)
    (p : Polyline) (out : RTCCommandBlock) : RTCCommandBlock :=
  match p.points with
  | [] => out
  | p0 :: rest =>
      let cmdStartIdx := out.commands.length
      let style := resolveStyle lib p.tag.type
      let out1 := { out with commands := out.commands ++
        (mkJump calib p0 :: rest.map (mkMark calib)) }
      applyBuildStyle style out1 cmdStartIdx

/-- `ScanStreamingManager::convertPolygon`: like a polyline plus a closing
Mark back to the first point. -/
def convertPolygon (calib : CoordCalib) (lib : BuildStyleLibrary)
    (p : Polygon) (out : RTCCommandBlock) : RTCCommandBlock :=
  match p.points with
  | [] => out
  | p0 :: rest =>
      let cmdStartIdx := out.commands.length
      let style := resolveStyle lib p.tag.type
      let out1 := { out with commands := out.commands ++
        ((mkJump calib p0 :: rest.map (mkMark calib)) ++ [mkMark calib p0]) }
      applyBuildStyle style out1 cmdStartIdx

/-- `ScanStreamingManager::convertLayerToBlock`: hatches, then polylines,
then polygons, each threaded through `out`.  In exact arithmetic no
conversion can fail, so the function is total. -/
def convertLayerToBlock (calib : CoordCalib) (lib : BuildStyleLibrary)
    (L : Layer) (out : RTCCommandBlock) : RTCCommandBlock :=
  let out1 := L.hatches.foldl (fun acc h => convertHatch calib lib h acc) out
  let out2 := L.polylines.foldl (fun acc p => convertPolyline calib lib p acc) out1
  L.polygons.foldl (fun acc p => convertPolygon calib lib p acc) out2

/-- The fresh block the producer thread builds before conversion
(scanstreamingmanager.cpp, producerThreadFunc): metadata copied from the
layer, empty command and segment lists. -/
def producerBlock (L : Layer) : RTCCommandBlock :=
  { layerNumber := L.layerNumber, layerHeight := L.layerHeight,
    layerThickness := L.layerThickness, hatchCount := L.hatches.length,
    polylineCount := L.polylines.length, polygonCount := L.polygons.length,
    commands := [], parameterSegments := [] }

end marc

namespace marc

/-!
Streaming slice reader (src/io/streamingmarcreader.cpp).

The file is a byte stream; `readHeader` consumes `sizeof(MarcHeader)`
bytes in a single `readBytes` call.  `MarcHeader` (readSlices.h) has no
packing pragma, so its size follows the C++ layout rules: each field is
placed at the next multiple of its alignment and the struct size is
rounded up to the struct's alignment.  `uint64_t` is 8-aligned on the
targeted platforms (MSVC and Itanium-ABI 64-bit).
-/

/-- One C++ struct field: its size and alignment in bytes. -/
structure CField where
  size : ℕ
  align : ℕ
deriving Repr, DecidableEq

/-- Round `o` up to the next multiple of `a`. -/
def alignUp (o a : ℕ) : ℕ := ((o + a - 1) / a) * a

/-- Lay the fields out in order: running end offset and running maximal
alignment. -/
def layoutFold (fs : List CField) : ℕ × ℕ :=
  fs.foldl (fun acc f => (alignUp acc.1 f.align + f.size, max acc.2 f.align)) (0, 1)

/-- `sizeof` of a C++ struct with the given fields. -/
def structSizeof (fs : List CField) : ℕ :=
  alignUp (layoutFold fs).1 (layoutFold fs).2

/-- Fields of `struct MarcHeader` (readSlices.h): `char magic[4]`,
`uint32_t version`, `uint32_t totalLayers`, `uint64_t indexTableOffset`,
`uint64_t timestamp`, `char printerId[32]`, `char reserved[100]`. -/
def marcHeaderFields : List CField :=
  [⟨4, 1⟩, ⟨4, 4⟩, ⟨4, 4⟩, ⟨8, 8⟩, ⟨8, 8⟩, ⟨32, 1⟩, ⟨100, 1⟩]

/-- `sizeof(MarcHeader)`: the byte count `StreamingMarcReader::readHeader`
consumes with `readBytes(&m_header, sizeof(MarcHeader))`. -/
def marcHeaderSizeof : ℕ := structSizeof marcHeaderFields

/-- `StreamingMarcReader::readHeader` on a byte stream: consume
`sizeof(MarcHeader)` bytes (failing on truncation, per `readBytes`) and
check the 4-byte magic `MARC` (77, 65, 82, 67); returns the remaining
stream, at which position the first layer record is decoded. -/
def readHeaderBytes (bs : List ℕ) : Option (List ℕ) :=
  if bs.length < marcHeaderSizeof then none
  else if bs.take 4 = [77, 65, 82, 67] then some (bs.drop marcHeaderSizeof)
  else none

/-!
Geometry decoding consumes `Point` values (two little-endian f32 each);
we model the stream at `Point` granularity, one `readPod` per point.
-/

/-- One `readPod(Point)` from the stream; EOF throws in the C++, `none`
here. -/
def readPoint : List Point → Option (Point × List Point)
  | [] => none
  | p :: rest => some (p, rest)

/-- The loop of `StreamingMarcReader::readHatch`: read `n` lines, each
two points `a`, `b`. -/
def readLines : ℕ → List Point → Option (List Line × List Point)
  | 0, s => some ([], s)
  | n + 1, s => do
    let (a, s1) ← readPoint s
    let (b, s2) ← readPoint s1
    let (ls, s3) ← readLines n s2
    some (⟨a, b⟩ :: ls, s3)

/-- `StreamingMarcReader::readHatch` (streamingmarcreader.cpp): with
`vertices = tag.pointCount`, read `vertices / 2` lines, then, when
`vertices` is odd, read and discard one dummy point. -/
def readHatchFromStream (tag : GeometryTag) (s : List Point) :
    Option (Hatch × List Point) := do
  let lineCount := tag.pointCount / 2
  let (ls, s1) ← readLines lineCount s
  if tag.pointCount % 2 = 1 then
    let (_, s2) ← readPoint s1
    some (⟨tag, ls⟩, s2)
  else
    some (⟨tag, ls⟩, s1)

end marc

namespace pc

/-!
Process-level state machine (src/controllers/processcontroller.cpp).

Each control-surface operation is modelled by its effect on `mState`;
pointer/path guards and the results of calls into collaborators are
oracle arguments.  `setState` only ever stores the new value, so the
state effect of an operation is exactly the last `setState` it reaches.
-/

/-- `ProcessController::ProcessState` (processcontroller.h). -/
inductive ProcessState where
  | Idle
  | Starting
  | Running
  | Paused
  | Stopping
  | EmergencyStopped
deriving Repr, DecidableEq

open ProcessState

/-- `ProcessController::pauseProcess`: refused unless Running. -/
def pauseProcess (s : ProcessState) : ProcessState :=
  if s ≠ Running then s else Paused

/-- `ProcessController::resumeProcess`: refused unless Paused. -/
def resumeProcess (s : ProcessState) : ProcessState :=
  if s ≠ Paused then s else Running

/-- `ProcessController::stopProcess`: only an early return when already
Idle; from any other state (including EmergencyStopped) it sets Idle. -/
def stopProcess (s : ProcessState) : ProcessState :=
  if s = Idle then s else Idle

/-- `ProcessController::emergencyStop`: unconditionally sets
EmergencyStopped. -/
def emergencyStop (_s : ProcessState) : ProcessState :=
  EmergencyStopped

/-- `ProcessController::onScanProcessFinished`: ignored unless Running. -/
def onScanProcessFinished (s : ProcessState) : ProcessState :=
  if s ≠ Running then s else Idle

/-- The defensive guards of `startProductionSLMProcess`, in source
order. -/
structure ProdGuards where
  scanManagerPresent : Bool
  marcPathNonempty : Bool
  configPathNonempty : Bool
  opcControllerPresent : Bool
deriving Repr, DecidableEq

/-- `ProcessController::startProductionSLMProcess`: early return when
Running or a guard fails; otherwise it reaches `setState(Starting)` and
returns (the rest is asynchronous). -/
def startProductionSLMProcess (s : ProcessState) (g : ProdGuards) :
    ProcessState :=
  if s = Running then s
  else if !g.scanManagerPresent then s
  else if !g.marcPathNonempty then s
  else if !g.configPathNonempty then s
  else if !g.opcControllerPresent then s
  else Starting

/-- `ProcessController::startTestSLMProcess`: early return when Running
or the streaming manager is absent; `setState(Running)` only when the
underlying `startTestProcess` succeeds. -/
def startTestSLMProcess (s : ProcessState)
    (scanManagerPresent startSucceeded : Bool) : ProcessState :=
  if s = Running then s
  else if !scanManagerPresent then s
  else if startSucceeded then Running
  else s

end pc

namespace opc

/-!
PLC client (src/opcserver/opcserverua.cpp).

State relevant to the claims: `mConnectionLost`, `mIsInitialized` and
whether `mClient` is non-null.  The outcome of each open62541 call is an
oracle argument; observable effects (whether the library call was
reached, whether `connectionLost()` was emitted, PLC writes, sleeps) are
returned as data.
-/

/-- The client-state flags guarded by `mStateMutex`. -/
structure ClientState where
  connectionLost : Bool
  isInitialized : Bool
  hasClient : Bool
deriving Repr, DecidableEq

/-- A healthy, connected session. -/
def connectedState : ClientState :=
  { connectionLost := false, isInitialized := true, hasClient := true }

/-- The open62541 status codes the client distinguishes. -/
inductive UAStatus where
  | good
  | badConnectionClosed
  | badSessionClosed
  | otherBad
deriving Repr, DecidableEq

/-- The statuses treated as connection loss
(`UA_STATUSCODE_BADCONNECTIONCLOSED`, `UA_STATUSCODE_BADSESSIONCLOSED`). -/
def UAStatus.isConnectionClosed : UAStatus → Bool
  | .badConnectionClosed => true
  | .badSessionClosed => true
  | _ => false

/-- The variant types the read helpers accept or reject. -/
inductive VariantKind where
  | int32
  | int16
  | boolean
  | other
deriving Repr, DecidableEq

/-- `OPCServerManagerUA::handleConnectionLoss`: on first detection set
`mConnectionLost`, clear `mIsInitialized` and emit `connectionLost()`
once; later calls change nothing and emit nothing. -/
def handleConnectionLoss (s : ClientState) : ClientState × Bool :=
  if s.connectionLost then (s, false)
  else ({ s with connectionLost := true, isInitialized := false }, true)

/-- Result of one primitive read/write call. -/
structure PrimResult where
  state : ClientState
  ok : Bool
  performedIO : Bool
  emittedConnectionLost : Bool
deriving Repr, DecidableEq

/-- `OPCServerManagerUA::readInt32Node`: stage 1 fails fast (no I/O) when
`mConnectionLost || !mClient || !mIsInitialized`; stage 2 performs the
library read; a connection-closed status goes through
`handleConnectionLoss`; stage 3 accepts Int32 or Int16 variants. -/
def readInt32Node (s : ClientState) (status : UAStatus) (vk : VariantKind) :
    PrimResult :=
  if s.connectionLost || !s.hasClient || !s.isInitialized then
    ⟨s, false, false, false⟩
  else if status.isConnectionClosed then
    let r := handleConnectionLoss s
    ⟨r.1, false, true, r.2⟩
  else if status ≠ .good then ⟨s, false, true, false⟩
  else
    match vk with
    | .int32 => ⟨s, true, true, false⟩
    | .int16 => ⟨s, true, true, false⟩
    | _ => ⟨s, false, true, false⟩

/-- `OPCServerManagerUA::readBoolNode`: as `readInt32Node` but accepting
only Boolean variants. -/
def readBoolNode (s : ClientState) (status : UAStatus) (vk : VariantKind) :
    PrimResult :=
  if s.connectionLost || !s.hasClient || !s.isInitialized then
    ⟨s, false, false, false⟩
  else if status.isConnectionClosed then
    let r := handleConnectionLoss s
    ⟨r.1, false, true, r.2⟩
  else if status ≠ .good then ⟨s, false, true, false⟩
  else
    match vk with
    | .boolean => ⟨s, true, true, false⟩
    | _ => ⟨s, false, true, false⟩

/-- `OPCServerManagerUA::writeInt32Node`. -/
def writeInt32Node (s : ClientState) (status : UAStatus) : PrimResult :=
  if s.connectionLost || !s.hasClient || !s.isInitialized then
    ⟨s, false, false, false⟩
  else if status.isConnectionClosed then
    let r := handleConnectionLoss s
    ⟨r.1, false, true, r.2⟩
  else if status ≠ .good then ⟨s, false, true, false⟩
  else ⟨s, true, true, false⟩

/-- `OPCServerManagerUA::writeBoolNode`. -/
def writeBoolNode (s : ClientState) (status : UAStatus) : PrimResult :=
  if s.connectionLost || !s.hasClient || !s.isInitialized then
    ⟨s, false, false, false⟩
  else if status.isConnectionClosed then
    let r := handleConnectionLoss s
    ⟨r.1, false, true, r.2⟩
  else if status ≠ .good then ⟨s, false, true, false⟩
  else ⟨s, true, true, false⟩

/-- One primitive call together with its library outcome. -/
inductive PrimCall where
  | readI32 (status : UAStatus) (vk : VariantKind)
  | readB (status : UAStatus) (vk : VariantKind)
  | writeI32 (status : UAStatus)
  | writeB (status : UAStatus)
deriving Repr, DecidableEq

/-- The library status an individual call would see, were the call
performed. -/
def PrimCall.status : PrimCall → UAStatus
  | .readI32 st _ => st
  | .readB st _ => st
  | .writeI32 st => st
  | .writeB st => st

/-- Dispatch one primitive call. -/
def stepPrim (s : ClientState) : PrimCall → PrimResult
  | .readI32 st vk => readInt32Node s st vk
  | .readB st vk => readBoolNode s st vk
  | .writeI32 st => writeInt32Node s st
  | .writeB st => writeBoolNode s st

/-- Run a sequence of primitive calls, counting `connectionLost()`
emissions. -/
def runCalls : ClientState → List PrimCall → ClientState × ℕ
  | s, [] => (s, 0)
  | s, c :: cs =>
      let r := stepPrim s c
      let rest := runCalls r.state cs
      (rest.1, (if r.emittedConnectionLost then 1 else 0) + rest.2)

/-- `OPCServerManagerUA::initialize`: clears `mConnectionLost` before
connecting; on connect failure the client is reset and the session is
not initialized; on success node ids are set up and `mIsInitialized`
is set. -/
def initializeClient (_s : ClientState) (connectOk : Bool) : ClientState × Bool :=
  if connectOk then (⟨false, true, true⟩, true)
  else (⟨false, false, false⟩, false)

/-- Result of `writeEmergencyStop`: return value, whether the
`StartSurfaces=false` write was attempted, whether a log line was
produced. -/
structure EmergencyStopResult where
  ret : Bool
  wroteStartSurfacesFalse : Bool
  logged : Bool
deriving Repr, DecidableEq

/-- `OPCServerManagerUA::writeEmergencyStop` (opcserverua.cpp): when
`mConnectionLost` is set it logs an error and returns false without
attempting any write; otherwise it attempts `StartSurfaces=false` only
under `mIsInitialized && mClient` (the write result is ignored), logs the
emergency message and returns true.  (The inner `writeBoolNode` call is
made while `mStateMutex` is already held; the resulting self-deadlock is
a concurrency artifact outside this sequential model.) -/
def writeEmergencyStop (s : ClientState) : EmergencyStopResult :=
  if s.connectionLost then
    { ret := false, wroteStartSurfacesFalse := false, logged := true }
  else
    { ret := true,
      wroteStartSurfacesFalse := s.isInitialized && s.hasClient,
      logged := true }

/-- The PLC tags written by the layer-parameter sequence. -/
inductive PlcTag where
  | LayStacks
  | StepSource
  | StepSink
  | LaySurface
deriving Repr, DecidableEq

/-- Observable effects of `writeLayerParameters`: attempted PLC writes
(with their outcome) and `QThread::msleep` pauses. -/
inductive PlcEvent where
  | wI32 (tag : PlcTag) (value : ℤ) (ok : Bool)
  | wBool (tag : PlcTag) (value : Bool) (ok : Bool)
  | sleepMs (ms : ℕ)
deriving Repr, DecidableEq

/-- `OPCServerManagerUA::writeLayerParameters` (opcserverua.cpp): after
the state check, write `Lay_Stacks`, sleep 100 ms, write `Step_Source`,
sleep 100 ms, write `Step_Sink`, sleep 100 ms, write `LaySurface=true`,
then (after an internal simulation trigger that performs no PLC I/O)
sleep 400 ms; each failing write returns false immediately.  `o1..o4` are
the outcomes of the four writes. -/
def writeLayerParameters (s : ClientState) (layers deltaSource deltaSink : ℤ)
    (o1 o2 o3 o4 : Bool) : Bool × List PlcEvent :=
  if s.connectionLost || !s.isInitialized then (false, [])
  else
    let e1 := PlcEvent.wI32 .LayStacks layers o1
    if !o1 then (false, [e1])
    else
      let e2 := PlcEvent.wI32 .StepSource deltaSource o2
      if !o2 then (false, [e1, .sleepMs 100, e2])
      else
        let e3 := PlcEvent.wI32 .StepSink deltaSink o3
        if !o3 then (false, [e1, .sleepMs 100, e2, .sleepMs 100, e3])
        else
          let e4 := PlcEvent.wBool .LaySurface true o4
          if !o4 then
            (false, [e1, .sleepMs 100, e2, .sleepMs 100, e3, .sleepMs 100, e4])
          else
            (true, [e1, .sleepMs 100, e2, .sleepMs 100, e3, .sleepMs 100, e4,
              .sleepMs 400])

/-- The attempted PLC writes of a trace, in order, without the sleeps. -/
def writesOf (tr : List PlcEvent) : List PlcEvent :=
  tr.filter fun e =>
    match e with
    | .wI32 _ _ _ => true
    | .wBool _ _ _ => true
    | .sleepMs _ => false

end opc

namespace scanstream

/-!
`ScanStreamingManager::startTestProcess` (scanstreamingmanager.cpp,
lines 184 ff.): argument validation at the public interface.  The checks
run in source order before any member of the manager is mutated and
before any thread is spawned.
-/

/-- What the call did: return value, whether any worker thread was
spawned, whether any process state member was mutated. -/
structure TestStartResult where
  ret : Bool
  threadsStarted : Bool
  stateMutated : Bool
deriving Repr, DecidableEq

/-- `ScanStreamingManager::startTestProcess`: reject when threads are
already running, when `testLayerThickness` is outside `(0, 0.5]` mm, when
`testLayerCount` is outside `[1, 100]`, or when no OPC manager is set;
only then reset state and spawn the consumer and test-producer threads. -/
def startTestProcess (threadsJoinable : Bool) (testLayerThickness : ℚ)
    (testLayerCount : ℕ) (opcManagerPresent : Bool) : TestStartResult :=
  if threadsJoinable then ⟨false, false, false⟩
  else if testLayerThickness ≤ 0 ∨ testLayerThickness > 1/2 then
    ⟨false, false, false⟩
  else if testLayerCount = 0 ∨ testLayerCount > 100 then ⟨false, false, false⟩
  else if !opcManagerPresent then ⟨false, false, false⟩
  else ⟨true, true, true⟩

end scanstream

namespace marc

/-!
Specification vocabulary for the parameter-segment invariants, plus
concrete inputs used by counterexamples and witnesses.
-/

/-- `tilesFrom k segs n`: the segments, in order, tile the command index
interval `[k, n)` contiguously (each segment's inclusive range is
non-empty and starts where the previous one ended). -/
def tilesFrom : ℕ → List ParameterSegment → ℕ → Prop
  | k, [], n => n = k
  | k, seg :: rest, n =>
      seg.startCmd = k ∧ k ≤ seg.endCmd ∧ tilesFrom (seg.endCmd + 1) rest n

/-- The set of command indices covered by the segments (union of the
inclusive ranges `[startCmd, endCmd]`). -/
def coveredSet (segs : List ParameterSegment) : Finset ℕ :=
  segs.foldr (fun s acc => Finset.Icc s.startCmd s.endCmd ∪ acc) ∅

/-- `mm / bitsPerMM` input magnitude at which the scaled value reaches
`maxBits` (the f-theta field limit: `fieldSizeMM / 2 / scaleCorrection`,
i.e. 81.7 mm at the default calibration). -/
def fieldLimitMM (c : CoordCalib) : ℚ := (c.maxBits : ℚ) / c.bitsPerMM

/-- A hatch line with both endpoints at the origin (coordinates are
irrelevant to the segment bookkeeping). -/
def zeroLine : Line := ⟨⟨0, 0⟩, ⟨0, 0⟩⟩

/-- A build style with id 1 as a config.json entry would produce it. -/
def demoStyle1 : BuildStyle :=
  { id := 1, laserPower := 100, laserSpeed := 250, jumpSpeed := 1000 }

/-- A build style with id 2. -/
def demoStyle2 : BuildStyle := { id := 2, laserPower := 50 }

/-- Library mapping geometry type 1 to `demoStyle1` only. -/
def demoLib : BuildStyleLibrary :=
  ⟨fun t => if t = 1 then some demoStyle1 else none⟩

/-- Library mapping geometry types 1 and 2 (no fallback id 8 needed). -/
def degenLib : BuildStyleLibrary :=
  ⟨fun t => if t = 1 then some demoStyle1
            else if t = 2 then some demoStyle2 else none⟩

/-- A one-hatch layer whose single hatch has one line and a resolvable
style. -/
def demoLayer : Layer :=
  { layerNumber := 1, layerHeight := 0, layerThickness := 1/5,
    hatches := [⟨⟨1, 1, 2⟩, [zeroLine]⟩],
    polylines := [], polygons := [], support_circles := [] }

/-- A layer whose second hatch carries zero lines (as the reader produces
for `point_count < 2`) while its style resolves: the builder emits a
degenerate parameter segment for it. -/
def degenLayer : Layer :=
  { layerNumber := 1, layerHeight := 0, layerThickness := 1/5,
    hatches := [⟨⟨1, 1, 2⟩, [zeroLine]⟩, ⟨⟨2, 1, 0⟩, []⟩],
    polylines := [], polygons := [], support_circles := [] }

/-- The block the producer builds for `degenLayer`. -/
def degenBlock : RTCCommandBlock :=
  convertLayerToBlock defCalib degenLib degenLayer (producerBlock degenLayer)

/-- A layer whose first hatch (geometry type 5) resolves no style — the
library has neither type 5 nor the fallback 8 — while the second hatch
(type 1) does: its commands are then covered by no segment. -/
def gapLayer : Layer :=
  { layerNumber := 1, layerHeight := 0, layerThickness := 1/5,
    hatches := [⟨⟨5, 1, 2⟩, [zeroLine]⟩, ⟨⟨1, 1, 2⟩, [zeroLine]⟩],
    polylines := [], polygons := [], support_circles := [] }

/-- The block the producer builds for `gapLayer` under `demoLib`. -/
def gapBlock : RTCCommandBlock :=
  convertLayerToBlock defCalib demoLib gapLayer (producerBlock gapLayer)

/-- The block the producer builds for `demoLayer` under `demoLib`. -/
def demoBlock : RTCCommandBlock :=
  convertLayerToBlock defCalib demoLib demoLayer (producerBlock demoLayer)

/-- The command block the producer hands to the queue for layer `L`:
a fresh metadata-carrying block run through `convertLayerToBlock`. -/
def builtBlock (calib : CoordCalib) (lib : BuildStyleLibrary) (L : Layer) :
    RTCCommandBlock :=
  convertLayerToBlock calib lib L (producerBlock L)

/-- A syntactically valid slice-file prefix: correct magic followed by
zero padding up to the header size. -/
def demoMarcBytes : List ℕ := [77, 65, 82, 67] ++ List.replicate 164 0

/-- A three-point stream for the odd-`point_count` hatch boundary case. -/
def demoPointStream : List Point := [⟨0, 0⟩, ⟨1, 0⟩, ⟨2, 0⟩]

end marc

namespace opc

/-- The claimed write sequence of `writeLayerParameters`, annotated with
the four outcomes. -/
def layerParamWriteSeq (layers deltaSource deltaSink : ℤ)
    (o1 o2 o3 o4 : Bool) : List PlcEvent :=
  [.wI32 .LayStacks layers o1, .wI32 .StepSource deltaSource o2,
   .wI32 .StepSink deltaSink o3, .wBool .LaySurface true o4]

/-- How many of the four writes are attempted: everything up to and
including the first failure. -/
def numAttempted (o1 o2 o3 _o4 : Bool) : ℕ :=
  if !o1 then 1 else if !o2 then 2 else if !o3 then 3 else 4

/-- A call sequence whose first call hits a closed session and whose
remainder would succeed were the session alive. -/
def demoCalls : List PrimCall :=
  [.writeI32 .good, .readB .badConnectionClosed .boolean, .readI32 .good .int32]

end opc


/-!
## Theorems
-/

/-- C3 (counterexample): `stopProcess` invoked in `EmergencyStopped` does
not leave the state at `EmergencyStopped` — it transitions to `Idle`, so
`EmergencyStopped` is not terminal for the run. -/
theorem C3_stop_escapes_emergency :
    pc.stopProcess pc.ProcessState.EmergencyStopped = pc.ProcessState.Idle ∧
    pc.ProcessState.Idle ≠ pc.ProcessState.EmergencyStopped := by
  decide

/-- C3 (amended): in `EmergencyStopped`, pause, resume and
finished-handling leave the state unchanged, but `stopProcess`
transitions to `Idle`, `startProductionSLMProcess` (with its pointer and
path guards satisfied) transitions to `Starting`, and
`startTestSLMProcess` (when the underlying test start succeeds)
transitions to `Running`. -/
theorem C3_emergency_stop_transitions :
    pc.pauseProcess pc.ProcessState.EmergencyStopped =
      pc.ProcessState.EmergencyStopped ∧
    pc.resumeProcess pc.ProcessState.EmergencyStopped =
      pc.ProcessState.EmergencyStopped ∧
    pc.onScanProcessFinished pc.ProcessState.EmergencyStopped =
      pc.ProcessState.EmergencyStopped ∧
    pc.stopProcess pc.ProcessState.EmergencyStopped = pc.ProcessState.Idle ∧
    pc.startProductionSLMProcess pc.ProcessState.EmergencyStopped
      ⟨true, true, true, true⟩ = pc.ProcessState.Starting ∧
    pc.startTestSLMProcess pc.ProcessState.EmergencyStopped true true =
      pc.ProcessState.Running := by
  decide

/-- C4 (counterexample): with the `connection_lost` flag set,
`writeEmergencyStop` does not attempt the `StartSurfaces=false` write; it
returns false (though it still logs). -/
theorem C4_no_write_when_connection_lost :
    (opc.writeEmergencyStop ⟨true, true, true⟩).wroteStartSurfacesFalse = false ∧
    (opc.writeEmergencyStop ⟨true, true, true⟩).ret = false ∧
    (opc.writeEmergencyStop ⟨true, true, true⟩).logged = true := by
  decide

/-- C4 (amended): `writeEmergencyStop` always produces a log message; it
attempts the `StartSurfaces=false` write exactly when `connection_lost`
is clear and the session is initialized with a live client; it returns
false exactly when `connection_lost` is set. -/
theorem C4_emergency_stop_behavior (s : opc.ClientState) :
    (opc.writeEmergencyStop s).logged = true ∧
    (opc.writeEmergencyStop s).wroteStartSurfacesFalse =
      (!s.connectionLost && (s.isInitialized && s.hasClient)) ∧
    (opc.writeEmergencyStop s).ret = !s.connectionLost := by
  rcases s with ⟨cl, ini, hc⟩
  cases cl <;> cases ini <;> cases hc <;> decide

/-- C2 (code evaluated at the failing input): for a layer whose second
hatch appends zero commands while its style resolves and an earlier hatch
already contributed commands, the builder emits a parameter segment for
the empty hatch — a degenerate one with `start_cmd = 2 > 1 = end_cmd` —
instead of emitting nothing as specified. -/
theorem C2_degenerate_segment_emitted :
    marc.degenBlock.commands.length = 2 ∧
    marc.degenBlock.parameterSegments.map (fun s => (s.startCmd, s.endCmd)) =
      [(0, 1), (2, 1)] := by
  decide

/-- C5 (counterexample): `readHeader` consumes `sizeof(MarcHeader)` =
168 bytes — `MarcHeader` has no packing pragma, so 4 padding bytes sit
before `indexTableOffset` and 4 at the tail — not the 148 bytes the
specification states. -/
theorem C5_header_is_168_bytes :
    marc.marcHeaderSizeof = 168 ∧ marc.marcHeaderSizeof ≠ 148 := by
  decide

/-- C5 (amended): the header step consumes exactly
`sizeof(MarcHeader)` = 168 bytes, so for every well-formed slice file the
first layer record is decoded starting at byte offset 168 (not 148). -/
theorem C5_header_consumption (bs : List ℕ)
    (hlen : marc.marcHeaderSizeof ≤ bs.length)
    (hmagic : bs.take 4 = [77, 65, 82, 67]) :
    marc.readHeaderBytes bs = some (bs.drop 168) := by
  have h168 : marc.marcHeaderSizeof = 168 := by decide
  unfold marc.readHeaderBytes
  rw [h168] at hlen ⊢
  rw [if_neg (by omega), if_pos hmagic]

/-- Witness for `C5_header_consumption` at a concrete 168-byte file. -/
theorem C5_header_consumption_witness :
    marc.marcHeaderSizeof ≤ marc.demoMarcBytes.length ∧
    marc.demoMarcBytes.take 4 = [77, 65, 82, 67] ∧
    marc.readHeaderBytes marc.demoMarcBytes = some (marc.demoMarcBytes.drop 168) :=
  ⟨by decide, by decide,
   C5_header_consumption marc.demoMarcBytes (by decide) (by decide)⟩

/-- C10: `startTestProcess` rejects out-of-range arguments at the public
interface — returning false with no thread started and no state mutated
whenever `thickness ≤ 0` or `thickness > 0.5`, and whenever
`layer_count = 0` or `layer_count > 100` — and a test run begins only for
`thickness ∈ (0, 0.5]` and `layer_count ∈ [1, 100]`. -/
theorem C10_test_start_validation (tj : Bool) (th : ℚ) (lc : ℕ)
    (opcPresent : Bool) :
    ((th ≤ 0 ∨ 1/2 < th) →
      scanstream.startTestProcess tj th lc opcPresent = ⟨false, false, false⟩) ∧
    ((lc = 0 ∨ 100 < lc) →
      scanstream.startTestProcess tj th lc opcPresent = ⟨false, false, false⟩) ∧
    ((scanstream.startTestProcess tj th lc opcPresent).threadsStarted = true →
      0 < th ∧ th ≤ 1/2 ∧ 1 ≤ lc ∧ lc ≤ 100) := by
  unfold scanstream.startTestProcess
  split_ifs with h1 h2 h3 h4
  · exact ⟨fun _ => rfl, fun _ => rfl, fun h => absurd h (by simp)⟩
  · exact ⟨fun _ => rfl, fun _ => rfl, fun h => absurd h (by simp)⟩
  · exact ⟨fun _ => rfl, fun _ => rfl, fun h => absurd h (by simp)⟩
  · exact ⟨fun _ => rfl, fun _ => rfl, fun h => absurd h (by simp)⟩
  · push_neg at h2 h3
    exact ⟨fun h => absurd h (by push_neg; exact h2),
           fun h => absurd h (by push_neg; exact h3),
           fun _ => ⟨h2.1, h2.2, by omega, h3.2⟩⟩

/-- Witness for `C10_test_start_validation`: thickness 1 mm is rejected;
thickness 0.3 mm with 5 layers starts and is in range. -/
theorem C10_test_start_validation_witness :
    ((1 : ℚ) ≤ 0 ∨ 1/2 < (1 : ℚ)) ∧
    scanstream.startTestProcess false 1 5 true = ⟨false, false, false⟩ ∧
    (scanstream.startTestProcess false (3/10) 5 true).threadsStarted = true ∧
    (0 < (3/10 : ℚ) ∧ (3/10 : ℚ) ≤ 1/2 ∧ 1 ≤ 5 ∧ 5 ≤ 100) :=
  ⟨by norm_num, (C10_test_start_validation false 1 5 true).1 (by norm_num),
   by norm_num [scanstream.startTestProcess],
   (C10_test_start_validation false (3/10) 5 true).2.2
     (by norm_num [scanstream.startTestProcess])⟩

/-- C7: `writeLayerParameters` attempts exactly the write sequence
`Lay_Stacks := layers`, `Step_Source := delta_source`,
`Step_Sink := delta_sink`, `LaySurface := true` in this order, stopping
at the first failure and returning false; on full success the complete
trace interleaves the 100 ms pacing sleeps and the trailing 400 ms
sleep. -/
theorem C7_write_layer_parameters (layers ds dk : ℤ) (o1 o2 o3 o4 : Bool) :
    (opc.writeLayerParameters opc.connectedState layers ds dk o1 o2 o3 o4).1 =
      (o1 && o2 && o3 && o4) ∧
    opc.writesOf
        (opc.writeLayerParameters opc.connectedState layers ds dk o1 o2 o3 o4).2 =
      (opc.layerParamWriteSeq layers ds dk o1 o2 o3 o4).take
        (opc.numAttempted o1 o2 o3 o4) ∧
    ((o1 && o2 && o3 && o4) = true →
      (opc.writeLayerParameters opc.connectedState layers ds dk o1 o2 o3 o4).2 =
        [.wI32 .LayStacks layers true, .sleepMs 100,
         .wI32 .StepSource ds true, .sleepMs 100,
         .wI32 .StepSink dk true, .sleepMs 100,
         .wBool .LaySurface true true, .sleepMs 400]) := by
  cases o1 <;> cases o2 <;> cases o3 <;> cases o4 <;>
    simp [opc.writeLayerParameters, opc.writesOf, opc.layerParamWriteSeq,
      opc.numAttempted, opc.connectedState, List.filter]

/-- Witness for `C7_write_layer_parameters`: all four writes succeed for
`(layers, Δsource, Δsink) = (1, 200, 200)` and the full paced trace is
produced. -/
theorem C7_write_layer_parameters_witness :
    (true && true && true && true) = true ∧
    (opc.writeLayerParameters opc.connectedState 1 200 200 true true true true).2 =
      [.wI32 .LayStacks 1 true, .sleepMs 100,
       .wI32 .StepSource 200 true, .sleepMs 100,
       .wI32 .StepSink 200 true, .sleepMs 100,
       .wBool .LaySurface true true, .sleepMs 400] :=
  ⟨rfl, (C7_write_layer_parameters 1 200 200 true true true true).2.2 rfl⟩


/-- The line-reading loop of `readHatch` consumes exactly `2 * n` points
and produces `n` lines. -/
theorem readLines_spec (n : ℕ) :
    ∀ s : List marc.Point, 2 * n ≤ s.length →
      ∃ ls : List marc.Line,
        marc.readLines n s = some (ls, s.drop (2 * n)) ∧ ls.length = n := by
  induction n with
  | zero => intro s _; exact ⟨[], by simp [marc.readLines], rfl⟩
  | succ n ih =>
    intro s hlen
    match s with
    | [] => simp at hlen
    | [a] => simp at hlen; omega
    | a :: b :: t =>
      have ht : 2 * n ≤ t.length := by
        simp only [List.length_cons] at hlen; omega
      obtain ⟨ls, hls, hlslen⟩ := ih t ht
      refine ⟨⟨a, b⟩ :: ls, ?_, by simp [hlslen]⟩
      have hdrop : (a :: b :: t).drop (2 * (n + 1)) = t.drop (2 * n) := by
        have h2 : 2 * (n + 1) = 2 * n + 1 + 1 := by ring
        rw [h2, List.drop_succ_cons, List.drop_succ_cons]
      rw [hdrop]
      simp [marc.readLines, marc.readPoint, hls]

/-- C8: a hatch record with `point_count = 2k+1` yields exactly `k`
lines and consumes exactly one additional trailing point, which is
discarded (the stream resumes `2k+1` points further on); with
`point_count = 2k` it yields `k` lines and consumes no extra point. -/
theorem C8_hatch_odd_even (tag : marc.GeometryTag) (s : List marc.Point)
    (k : ℕ) (hlen : tag.pointCount ≤ s.length) :
    (tag.pointCount = 2 * k + 1 →
      ∃ ls, marc.readHatchFromStream tag s =
          some (⟨tag, ls⟩, s.drop (2 * k + 1)) ∧ ls.length = k) ∧
    (tag.pointCount = 2 * k →
      ∃ ls, marc.readHatchFromStream tag s =
          some (⟨tag, ls⟩, s.drop (2 * k)) ∧ ls.length = k) := by
  constructor
  · intro hodd
    have hdiv : tag.pointCount / 2 = k := by omega
    have hmod : tag.pointCount % 2 = 1 := by omega
    obtain ⟨ls, hls, hlslen⟩ := readLines_spec k s (by omega)
    have hne : s.drop (2 * k) ≠ [] := by
      intro hc
      have := congrArg List.length hc
      simp only [List.length_drop, List.length_nil] at this
      omega
    obtain ⟨q, rest, hqr⟩ := List.exists_cons_of_ne_nil hne
    have hrest : s.drop (2 * k + 1) = rest := by
      have h1 : s.drop (2 * k + 1) = (s.drop (2 * k)).drop 1 := by
        rw [List.drop_drop]
      rw [h1, hqr, List.drop_one, List.tail_cons]
    refine ⟨ls, ?_, hlslen⟩
    rw [marc.readHatchFromStream, hdiv, hls]
    simp [hmod, hqr, marc.readPoint, hrest]
  · intro heven
    have hdiv : tag.pointCount / 2 = k := by omega
    have hmod : tag.pointCount % 2 = 0 := by omega
    obtain ⟨ls, hls, hlslen⟩ := readLines_spec k s (by omega)
    refine ⟨ls, ?_, hlslen⟩
    rw [marc.readHatchFromStream, hdiv, hls]
    simp [hmod]

/-- Witness for `C8_hatch_odd_even`: a hatch tag with `point_count = 3`
over a three-point stream yields one line and consumes all three
points. -/
theorem C8_hatch_odd_even_witness :
    (marc.GeometryTag.mk 1 1 3).pointCount ≤ marc.demoPointStream.length ∧
    (marc.GeometryTag.mk 1 1 3).pointCount = 2 * 1 + 1 ∧
    ∃ ls, marc.readHatchFromStream ⟨1, 1, 3⟩ marc.demoPointStream =
        some (⟨⟨1, 1, 3⟩, ls⟩, marc.demoPointStream.drop (2 * 1 + 1)) ∧
      ls.length = 1 :=
  ⟨by decide, rfl,
   (C8_hatch_odd_even ⟨1, 1, 3⟩ marc.demoPointStream 1 (by decide)).1 rfl⟩

/-- In a lost-connection state every primitive fails fast: no library
I/O, no emission, state unchanged. -/
theorem stepPrim_lost (s : opc.ClientState) (c : opc.PrimCall)
    (h : s.connectionLost = true) :
    opc.stepPrim s c = ⟨s, false, false, false⟩ := by
  cases c <;> simp [opc.stepPrim, opc.readInt32Node, opc.readBoolNode,
    opc.writeInt32Node, opc.writeBoolNode, h]

/-- In a lost-connection state a whole call sequence emits nothing and
leaves the state unchanged. -/
theorem runCalls_lost (s : opc.ClientState) (cs : List opc.PrimCall)
    (h : s.connectionLost = true) : opc.runCalls s cs = (s, 0) := by
  induction cs with
  | nil => rfl
  | cons c cs ih => simp [opc.runCalls, stepPrim_lost s c h, ih]

/-- From a healthy session, the first call whose status reports the
session closed sets the flag, clears `isInitialized`, performs its I/O,
fails, and emits `connectionLost()`. -/
theorem stepPrim_closed (c : opc.PrimCall)
    (h : c.status.isConnectionClosed = true) :
    opc.stepPrim opc.connectedState c =
      ⟨⟨true, false, true⟩, false, true, true⟩ := by
  cases c <;>
    simp only [opc.PrimCall.status] at h <;>
    simp [opc.stepPrim, opc.readInt32Node, opc.readBoolNode,
      opc.writeInt32Node, opc.writeBoolNode, opc.connectedState,
      opc.handleConnectionLoss, h]

/-- C6: on the first closed-session status the client sets
`connection_lost` and emits `connectionLost()`; once lost, every
primitive fails without I/O and without emitting; across any call
sequence beginning with the loss the notification is emitted exactly
once; `initialize` resets the flag (and the session is initialized
exactly when the connect succeeds). -/
theorem C6_connection_loss_protocol (c : opc.PrimCall)
    (cs : List opc.PrimCall)
    (hclosed : c.status.isConnectionClosed = true) :
    ((opc.stepPrim opc.connectedState c).state.connectionLost = true ∧
     (opc.stepPrim opc.connectedState c).emittedConnectionLost = true ∧
     (opc.stepPrim opc.connectedState c).ok = false) ∧
    (∀ (s : opc.ClientState) (d : opc.PrimCall), s.connectionLost = true →
      opc.stepPrim s d = ⟨s, false, false, false⟩) ∧
    (opc.runCalls opc.connectedState (c :: cs)).2 = 1 ∧
    (∀ (s : opc.ClientState) (connectOk : Bool),
      (opc.initializeClient s connectOk).1.connectionLost = false ∧
      (opc.initializeClient s connectOk).1.isInitialized = connectOk) := by
  have hstep := stepPrim_closed c hclosed
  refine ⟨⟨by rw [hstep], by rw [hstep], by rw [hstep]⟩,
    fun s d h => stepPrim_lost s d h, ?_, ?_⟩
  · simp [opc.runCalls, hstep, runCalls_lost ⟨true, false, true⟩ cs rfl]
  · intro s connectOk
    cases connectOk <;> simp [opc.initializeClient]

/-- Witness for `C6_connection_loss_protocol`: a read hitting
`BadSessionClosed` followed by further calls emits `connectionLost()`
exactly once. -/
theorem C6_connection_loss_protocol_witness :
    (opc.PrimCall.readI32 .badSessionClosed .int32).status.isConnectionClosed
      = true ∧
    (opc.runCalls opc.connectedState
      (.readI32 .badSessionClosed .int32 :: opc.demoCalls)).2 = 1 :=
  ⟨by decide,
   (C6_connection_loss_protocol (.readI32 .badSessionClosed .int32)
     opc.demoCalls (by decide)).2.2.1⟩

/-- `std::lround` is monotone non-decreasing. -/
theorem lround_mono {a b : ℚ} (h : a ≤ b) : marc.lround a ≤ marc.lround b := by
  unfold marc.lround
  split_ifs with ha hb
  · exact Int.floor_le_floor (by linarith)
  · linarith
  · have h1 : (⌈a - 1/2⌉ : ℤ) ≤ 0 := Int.ceil_le.mpr (by push_cast; linarith)
    have h2 : (0 : ℤ) ≤ ⌊b + 1/2⌋ := Int.le_floor.mpr (by push_cast; linarith)
    omega
  · exact Int.ceil_le_ceil (by linarith)

/-- `std::lround` is the identity on integers. -/
theorem lround_intCast (n : ℤ) : marc.lround (n : ℚ) = n := by
  unfold marc.lround
  split_ifs with h
  · rw [Int.floor_eq_iff]
    constructor <;> linarith
  · rw [Int.ceil_eq_iff]
    constructor <;> linarith

/-- The two sequential clamping ifs of `mmToBits` compute the standard
clamp to `[-maxBits, maxBits]`. -/
theorem mmToBits_eq_clamp (calib : marc.CoordCalib) (mm : ℚ) :
    marc.mmToBits calib mm =
      marc.lround (max (-(calib.maxBits : ℚ))
        (min (calib.maxBits : ℚ) (mm * calib.bitsPerMM))) := by
  unfold marc.mmToBits
  set v := mm * calib.bitsPerMM with hv
  set mx : ℚ := (calib.maxBits : ℚ) with hmx
  by_cases h1 : v > mx
  · simp only [if_pos h1]
    by_cases h2 : mx < -mx
    · rw [if_pos h2]
      congr 1
      rw [min_eq_left h1.le, max_eq_left h2.le]
    · rw [if_neg h2]
      congr 1
      rw [min_eq_left h1.le, max_eq_right (le_of_not_lt h2)]
  · simp only [if_neg h1]
    push_neg at h1
    by_cases h2 : v < -mx
    · rw [if_pos h2]
      congr 1
      rw [min_eq_right h1, max_eq_left h2.le]
    · rw [if_neg h2]
      congr 1
      rw [min_eq_right h1, max_eq_right (le_of_not_lt h2)]

/-- C9: at the default calibration, `mm_to_bits` is monotone
non-decreasing, its result always lies in `[-max_bits, max_bits]`
(`max_bits = 524287`), and inputs at or beyond the field limit map to
exactly `+max_bits` (symmetrically `-max_bits`). -/
theorem C9_mm_to_bits_monotone_saturating (x y : ℚ) :
    (x ≤ y → marc.mmToBits marc.defCalib x ≤ marc.mmToBits marc.defCalib y) ∧
    (-marc.defCalib.maxBits ≤ marc.mmToBits marc.defCalib x ∧
      marc.mmToBits marc.defCalib x ≤ marc.defCalib.maxBits) ∧
    (marc.fieldLimitMM marc.defCalib ≤ x →
      marc.mmToBits marc.defCalib x = marc.defCalib.maxBits) ∧
    (x ≤ -marc.fieldLimitMM marc.defCalib →
      marc.mmToBits marc.defCalib x = -marc.defCalib.maxBits) := by
  have hbpm : 0 < marc.defCalib.bitsPerMM := by
    norm_num [marc.CoordCalib.bitsPerMM, marc.defCalib]
  have hmx0 : (0 : ℚ) ≤ (marc.defCalib.maxBits : ℚ) := by
    norm_num [marc.defCalib]
  have hcastneg : -((marc.defCalib.maxBits : ℤ) : ℚ) =
      ((-marc.defCalib.maxBits : ℤ) : ℚ) := by
    push_cast
    ring
  refine ⟨?_, ⟨?_, ?_⟩, ?_, ?_⟩
  · intro hxy
    rw [mmToBits_eq_clamp, mmToBits_eq_clamp]
    exact lround_mono (max_le_max (le_refl _)
      (min_le_min (le_refl _) (mul_le_mul_of_nonneg_right hxy hbpm.le)))
  · rw [mmToBits_eq_clamp]
    have h := lround_mono
      (le_max_left (-(marc.defCalib.maxBits : ℚ))
        (min (marc.defCalib.maxBits : ℚ) (x * marc.defCalib.bitsPerMM)))
    rwa [hcastneg, lround_intCast] at h
  · rw [mmToBits_eq_clamp]
    have hle : max (-(marc.defCalib.maxBits : ℚ))
        (min (marc.defCalib.maxBits : ℚ) (x * marc.defCalib.bitsPerMM)) ≤
        (marc.defCalib.maxBits : ℚ) :=
      max_le (by linarith) (min_le_left _ _)
    have h := lround_mono hle
    rwa [lround_intCast] at h
  · intro hx
    rw [mmToBits_eq_clamp]
    have hvx : (marc.defCalib.maxBits : ℚ) ≤ x * marc.defCalib.bitsPerMM := by
      have h := (div_le_iff₀ hbpm).mp hx
      simpa [marc.fieldLimitMM] using h
    rw [min_eq_left hvx, max_eq_right (by linarith), lround_intCast]
  · intro hx
    rw [mmToBits_eq_clamp]
    have hvx : x * marc.defCalib.bitsPerMM ≤ -(marc.defCalib.maxBits : ℚ) := by
      have hx2 : x ≤ -((marc.defCalib.maxBits : ℚ) / marc.defCalib.bitsPerMM) := by
        simpa [marc.fieldLimitMM] using hx
      have h := mul_le_mul_of_nonneg_right hx2 hbpm.le
      calc x * marc.defCalib.bitsPerMM
          ≤ -((marc.defCalib.maxBits : ℚ) / marc.defCalib.bitsPerMM) *
              marc.defCalib.bitsPerMM := h
        _ = -(marc.defCalib.maxBits : ℚ) := by field_simp
    rw [min_eq_right (by linarith), max_eq_left hvx, hcastneg, lround_intCast]

/-- Witness for `C9_mm_to_bits_monotone_saturating`: 100 mm is beyond the
81.7 mm field limit, so it maps to exactly `max_bits`, and monotonicity
holds from 100 to 200. -/
theorem C9_mm_to_bits_witness :
    (100 : ℚ) ≤ 200 ∧
    marc.mmToBits marc.defCalib 100 ≤ marc.mmToBits marc.defCalib 200 ∧
    marc.fieldLimitMM marc.defCalib ≤ 100 ∧
    marc.mmToBits marc.defCalib 100 = marc.defCalib.maxBits :=
  ⟨by norm_num,
   (C9_mm_to_bits_monotone_saturating 100 200).1 (by norm_num),
   by norm_num [marc.fieldLimitMM, marc.CoordCalib.bitsPerMM, marc.defCalib],
   (C9_mm_to_bits_monotone_saturating 100 200).2.2.1
     (by norm_num [marc.fieldLimitMM, marc.CoordCalib.bitsPerMM, marc.defCalib])⟩

/-- A tiling of `[k, n)` forces `k ≤ n`. -/
theorem tilesFrom_le (segs : List marc.ParameterSegment) :
    ∀ k n : ℕ, marc.tilesFrom k segs n → k ≤ n := by
  induction segs with
  | nil =>
    intro k n h
    have hk : n = k := h
    omega
  | cons seg rest ih =>
    intro k n h
    obtain ⟨h1, h2, h3⟩ := h
    have := ih (seg.endCmd + 1) n h3
    omega

/-- Appending a segment that starts exactly at `n` and is non-empty
extends a tiling of `[k, n)` to one of `[k, endCmd + 1)`. -/
theorem tilesFrom_append (segs : List marc.ParameterSegment) :
    ∀ (k n : ℕ) (seg : marc.ParameterSegment),
      marc.tilesFrom k segs n → seg.startCmd = n → n ≤ seg.endCmd →
      marc.tilesFrom k (segs ++ [seg]) (seg.endCmd + 1) := by
  induction segs with
  | nil =>
    intro k n seg h hs he
    have hk : n = k := h
    exact ⟨by omega, by omega, rfl⟩
  | cons s0 rest ih =>
    intro k n seg h hs he
    obtain ⟨h1, h2, h3⟩ := h
    exact ⟨h1, h2, ih (s0.endCmd + 1) n seg h3 hs he⟩

/-- Every segment of a tiling has `startCmd ≤ endCmd`. -/
theorem tilesFrom_start_le_end (segs : List marc.ParameterSegment) :
    ∀ k n : ℕ, marc.tilesFrom k segs n →
      ∀ s ∈ segs, s.startCmd ≤ s.endCmd := by
  induction segs with
  | nil => intro k n _ s hs; cases hs
  | cons s0 rest ih =>
    intro k n h s hs
    obtain ⟨h1, h2, h3⟩ := h
    rcases List.mem_cons.mp hs with hs | hs
    · subst hs; omega
    · exact ih (s0.endCmd + 1) n h3 s hs

/-- Every segment of a tiling of `[k, n)` starts at or after `k`. -/
theorem tilesFrom_start_ge (segs : List marc.ParameterSegment) :
    ∀ k n : ℕ, marc.tilesFrom k segs n →
      ∀ s ∈ segs, k ≤ s.startCmd := by
  induction segs with
  | nil => intro k n _ s hs; cases hs
  | cons s0 rest ih =>
    intro k n h s hs
    obtain ⟨h1, h2, h3⟩ := h
    rcases List.mem_cons.mp hs with hs | hs
    · subst hs; omega
    · have := ih (s0.endCmd + 1) n h3 s hs
      omega

/-- The segments of a tiling are strictly ordered: each ends before the
next begins (hence they are non-overlapping and sorted by `startCmd` in
insertion order). -/
theorem tilesFrom_pairwise (segs : List marc.ParameterSegment) :
    ∀ k n : ℕ, marc.tilesFrom k segs n →
      segs.Pairwise fun a b => a.endCmd < b.startCmd := by
  induction segs with
  | nil => intro k n _; exact List.Pairwise.nil
  | cons s0 rest ih =>
    intro k n h
    obtain ⟨h1, h2, h3⟩ := h
    refine List.Pairwise.cons ?_ (ih (s0.endCmd + 1) n h3)
    intro b hb
    have := tilesFrom_start_ge rest (s0.endCmd + 1) n h3 b hb
    omega

/-- The union of the inclusive ranges of a tiling of `[k, n)` is exactly
`[k, n)`. -/
theorem tilesFrom_covered (segs : List marc.ParameterSegment) :
    ∀ k n : ℕ, marc.tilesFrom k segs n →
      marc.coveredSet segs = Finset.Ico k n := by
  induction segs with
  | nil =>
    intro k n h
    have hk : n = k := h
    simp [marc.coveredSet, hk]
  | cons s0 rest ih =>
    intro k n h
    obtain ⟨h1, h2, h3⟩ := h
    have hrest := ih (s0.endCmd + 1) n h3
    have hn := tilesFrom_le rest (s0.endCmd + 1) n h3
    show Finset.Icc s0.startCmd s0.endCmd ∪ marc.coveredSet rest = Finset.Ico k n
    rw [hrest, h1, ← Nat.Ico_succ_right,
      Finset.Ico_union_Ico_eq_Ico (by omega) hn]

/-- A tiling of the empty interval has no segments. -/
theorem tilesFrom_eq_nil (segs : List marc.ParameterSegment) :
    ∀ k : ℕ, marc.tilesFrom k segs k → segs = [] := by
  induction segs with
  | nil => intro _ _; rfl
  | cons s0 rest ih =>
    intro k h
    obtain ⟨h1, h2, h3⟩ := h
    have := tilesFrom_le rest (s0.endCmd + 1) k h3
    omega

/-- The length of the command list a hatch contributes: two commands per
line. -/
theorem flatMap_pair_length {α β : Type} (f g : α → β) (l : List α) :
    (l.flatMap fun a => [f a, g a]).length = 2 * l.length := by
  induction l with
  | nil => rfl
  | cons a t ih =>
    simp only [List.flatMap_cons, List.length_append, List.length_cons,
      List.length_nil, ih]
    omega

/-- `applyBuildStyle` with a resolved style and a non-empty command list
appends exactly one segment, ranging from the supplied start index to
the last current command. -/
theorem applyBuildStyle_some (st : marc.BuildStyle) (out : marc.RTCCommandBlock)
    (s0 : ℕ) (h : out.commands ≠ []) :
    marc.applyBuildStyle (some st) out s0 =
      { out with parameterSegments := out.parameterSegments ++
          [{ startCmd := s0, endCmd := out.commands.length - 1,
             buildStyleId := st.id, laserPower := st.laserPower,
             laserSpeed := st.laserSpeed, jumpSpeed := st.jumpSpeed,
             laserMode := st.laserMode, laserFocus := st.laserFocus }] } := by
  have h0 : ¬ out.commands.length = 0 := by simpa using h
  simp only [marc.applyBuildStyle, h0, if_false]
  unfold marc.RTCCommandBlock.addParameterSegment marc.setLastSegmentRange
  simp [List.getLast?_concat, List.dropLast_concat]

/-- Appending non-empty commands `cs` and then a resolved-style segment
starting at the old length preserves the tiling invariant. -/
theorem applyBuildStyle_tiles (st : marc.BuildStyle)
    (out : marc.RTCCommandBlock) (cs : List marc.Command) (hcs : cs ≠ [])
    (ht : marc.tilesFrom 0 out.parameterSegments out.commands.length) :
    marc.tilesFrom 0
      (marc.applyBuildStyle (some st) { out with commands := out.commands ++ cs }
        out.commands.length).parameterSegments
      (marc.applyBuildStyle (some st) { out with commands := out.commands ++ cs }
        out.commands.length).commands.length := by
  have hcslen : 0 < cs.length := List.length_pos.mpr hcs
  have hne : ({ out with commands := out.commands ++ cs } :
      marc.RTCCommandBlock).commands ≠ [] := by
    simp [hcs]
  rw [applyBuildStyle_some st _ _ hne]
  simp only [List.length_append]
  have happ := tilesFrom_append out.parameterSegments 0 out.commands.length
    { startCmd := out.commands.length,
      endCmd := out.commands.length + cs.length - 1,
      buildStyleId := st.id, laserPower := st.laserPower,
      laserSpeed := st.laserSpeed, jumpSpeed := st.jumpSpeed,
      laserMode := st.laserMode, laserFocus := st.laserFocus }
    ht rfl (by simp; omega)
  have hlen : out.commands.length + cs.length - 1 + 1 =
      out.commands.length + cs.length := by omega
  rw [hlen] at happ
  exact happ

/-- `convertHatch` preserves the tiling invariant when the hatch has at
least one line and its style resolves. -/
theorem convertHatch_tiles (calib : marc.CoordCalib)
    (lib : marc.BuildStyleLibrary) (h : marc.Hatch)
    (out : marc.RTCCommandBlock) (hlines : h.lines ≠ [])
    (hstyle : (marc.resolveStyle lib h.tag.type).isSome)
    (ht : marc.tilesFrom 0 out.parameterSegments out.commands.length) :
    marc.tilesFrom 0
      (marc.convertHatch calib lib h out).parameterSegments
      (marc.convertHatch calib lib h out).commands.length := by
  obtain ⟨st, hst⟩ := Option.isSome_iff_exists.mp hstyle
  have hcs : (h.lines.flatMap fun line =>
      [marc.mkJump calib line.a, marc.mkMark calib line.b]) ≠ [] := by
    intro hc
    apply hlines
    have hlen := congrArg List.length hc
    rw [flatMap_pair_length] at hlen
    simp only [List.length_nil] at hlen
    exact List.length_eq_zero.mp (by omega)
  simp only [marc.convertHatch, hst]
  exact applyBuildStyle_tiles st out _ hcs ht

/-- `convertPolyline` preserves the tiling invariant when its style
resolves for non-empty point lists. -/
theorem convertPolyline_tiles (calib : marc.CoordCalib)
    (lib : marc.BuildStyleLibrary) (p : marc.Polyline)
    (out : marc.RTCCommandBlock)
    (hstyle : p.points ≠ [] → (marc.resolveStyle lib p.tag.type).isSome)
    (ht : marc.tilesFrom 0 out.parameterSegments out.commands.length) :
    marc.tilesFrom 0
      (marc.convertPolyline calib lib p out).parameterSegments
      (marc.convertPolyline calib lib p out).commands.length := by
  rcases p with ⟨tag, pts⟩
  cases pts with
  | nil => exact ht
  | cons p0 rest =>
    obtain ⟨st, hst⟩ := Option.isSome_iff_exists.mp (hstyle (by simp))
    simp only [marc.convertPolyline, hst]
    exact applyBuildStyle_tiles st out _ (by simp) ht

/-- `convertPolygon` preserves the tiling invariant when its style
resolves for non-empty point lists. -/
theorem convertPolygon_tiles (calib : marc.CoordCalib)
    (lib : marc.BuildStyleLibrary) (p : marc.Polygon)
    (out : marc.RTCCommandBlock)
    (hstyle : p.points ≠ [] → (marc.resolveStyle lib p.tag.type).isSome)
    (ht : marc.tilesFrom 0 out.parameterSegments out.commands.length) :
    marc.tilesFrom 0
      (marc.convertPolygon calib lib p out).parameterSegments
      (marc.convertPolygon calib lib p out).commands.length := by
  rcases p with ⟨tag, pts⟩
  cases pts with
  | nil => exact ht
  | cons p0 rest =>
    obtain ⟨st, hst⟩ := Option.isSome_iff_exists.mp (hstyle (by simp))
    simp only [marc.convertPolygon, hst]
    exact applyBuildStyle_tiles st out _ (by simp) ht

/-- Folding `convertHatch` over a list of well-formed hatches preserves
the tiling invariant. -/
theorem hatchesFold_tiles (calib : marc.CoordCalib)
    (lib : marc.BuildStyleLibrary) (hs : List marc.Hatch) :
    ∀ out : marc.RTCCommandBlock,
      (∀ h ∈ hs, h.lines ≠ [] ∧ (marc.resolveStyle lib h.tag.type).isSome) →
      marc.tilesFrom 0 out.parameterSegments out.commands.length →
      marc.tilesFrom 0
        ((hs.foldl (fun acc h => marc.convertHatch calib lib h acc)
          out)).parameterSegments
        ((hs.foldl (fun acc h => marc.convertHatch calib lib h acc)
          out)).commands.length := by
  induction hs with
  | nil => intro out _ ht; exact ht
  | cons h t ih =>
    intro out hall ht
    have hh := hall h (List.mem_cons_self h t)
    exact ih (marc.convertHatch calib lib h out)
      (fun g hg => hall g (List.mem_cons_of_mem h hg))
      (convertHatch_tiles calib lib h out hh.1 hh.2 ht)

/-- Folding `convertPolyline` over polylines preserves the tiling
invariant. -/
theorem polylinesFold_tiles (calib : marc.CoordCalib)
    (lib : marc.BuildStyleLibrary) (ps : List marc.Polyline) :
    ∀ out : marc.RTCCommandBlock,
      (∀ p ∈ ps, p.points ≠ [] → (marc.resolveStyle lib p.tag.type).isSome) →
      marc.tilesFrom 0 out.parameterSegments out.commands.length →
      marc.tilesFrom 0
        ((ps.foldl (fun acc p => marc.convertPolyline calib lib p acc)
          out)).parameterSegments
        ((ps.foldl (fun acc p => marc.convertPolyline calib lib p acc)
          out)).commands.length := by
  induction ps with
  | nil => intro out _ ht; exact ht
  | cons p t ih =>
    intro out hall ht
    exact ih (marc.convertPolyline calib lib p out)
      (fun g hg => hall g (List.mem_cons_of_mem p hg))
      (convertPolyline_tiles calib lib p out
        (hall p (List.mem_cons_self p t)) ht)

/-- Folding `convertPolygon` over polygons preserves the tiling
invariant. -/
theorem polygonsFold_tiles (calib : marc.CoordCalib)
    (lib : marc.BuildStyleLibrary) (ps : List marc.Polygon) :
    ∀ out : marc.RTCCommandBlock,
      (∀ p ∈ ps, p.points ≠ [] → (marc.resolveStyle lib p.tag.type).isSome) →
      marc.tilesFrom 0 out.parameterSegments out.commands.length →
      marc.tilesFrom 0
        ((ps.foldl (fun acc p => marc.convertPolygon calib lib p acc)
          out)).parameterSegments
        ((ps.foldl (fun acc p => marc.convertPolygon calib lib p acc)
          out)).commands.length := by
  induction ps with
  | nil => intro out _ ht; exact ht
  | cons p t ih =>
    intro out hall ht
    exact ih (marc.convertPolygon calib lib p out)
      (fun g hg => hall g (List.mem_cons_of_mem p hg))
      (convertPolygon_tiles calib lib p out
        (hall p (List.mem_cons_self p t)) ht)

/-- The block built for a layer in which every hatch has at least one
line and every non-empty geometry resolves a style satisfies the tiling
invariant over its whole command list. -/
theorem builtBlock_tiles (calib : marc.CoordCalib)
    (lib : marc.BuildStyleLibrary) (L : marc.Layer)
    (hH : ∀ h ∈ L.hatches, h.lines ≠ [] ∧
      (marc.resolveStyle lib h.tag.type).isSome)
    (hP : ∀ p ∈ L.polylines, p.points ≠ [] →
      (marc.resolveStyle lib p.tag.type).isSome)
    (hG : ∀ g ∈ L.polygons, g.points ≠ [] →
      (marc.resolveStyle lib g.tag.type).isSome) :
    marc.tilesFrom 0 (marc.builtBlock calib lib L).parameterSegments
      (marc.builtBlock calib lib L).commands.length := by
  have h0 : marc.tilesFrom 0 (marc.producerBlock L).parameterSegments
      (marc.producerBlock L).commands.length := rfl
  exact polygonsFold_tiles calib lib L.polygons _ hG
    (polylinesFold_tiles calib lib L.polylines _ hP
      (hatchesFold_tiles calib lib L.hatches _ hH h0))

/-- C1 (counterexample): the claimed coverage fails for `gapLayer` under
`demoLib` — the first hatch resolves no style (neither its type 5 nor the
fallback 8 is in the library), so its two commands are covered by no
segment: the segment list is non-empty yet its union is not
`{0, …, |commands|−1}`. -/
theorem C1_coverage_gap :
    marc.gapBlock.parameterSegments ≠ [] ∧
    marc.coveredSet marc.gapBlock.parameterSegments ≠
      Finset.range marc.gapBlock.commands.length := by
  decide

/-- C1 (amended): for every block built by `convertLayerToBlock` from a
layer in which every hatch has at least one line and every geometry with
points resolves a build style (directly or via the fallback id 8), the
parameter segments satisfy `start_cmd ≤ end_cmd`, are non-overlapping
and ordered by `start_cmd` in insertion order (each ends strictly before
the next starts), their ranges cover exactly `{0, …, |commands|−1}` when
the segment list is non-empty, and the segment list is empty when
`commands` is empty. -/
theorem C1_segment_invariants (calib : marc.CoordCalib)
    (lib : marc.BuildStyleLibrary) (L : marc.Layer)
    (hH : ∀ h ∈ L.hatches, h.lines ≠ [] ∧
      (marc.resolveStyle lib h.tag.type).isSome)
    (hP : ∀ p ∈ L.polylines, p.points ≠ [] →
      (marc.resolveStyle lib p.tag.type).isSome)
    (hG : ∀ g ∈ L.polygons, g.points ≠ [] →
      (marc.resolveStyle lib g.tag.type).isSome) :
    (∀ s ∈ (marc.builtBlock calib lib L).parameterSegments,
      s.startCmd ≤ s.endCmd) ∧
    (marc.builtBlock calib lib L).parameterSegments.Pairwise
      (fun a b => a.endCmd < b.startCmd) ∧
    ((marc.builtBlock calib lib L).parameterSegments ≠ [] →
      marc.coveredSet (marc.builtBlock calib lib L).parameterSegments =
        Finset.range (marc.builtBlock calib lib L).commands.length) ∧
    ((marc.builtBlock calib lib L).commands = [] →
      (marc.builtBlock calib lib L).parameterSegments = []) := by
  have ht := builtBlock_tiles calib lib L hH hP hG
  refine ⟨tilesFrom_start_le_end _ 0 _ ht, tilesFrom_pairwise _ 0 _ ht, ?_, ?_⟩
  · intro _
    rw [tilesFrom_covered _ 0 _ ht, Finset.range_eq_Ico]
  · intro hc
    have hlen : (marc.builtBlock calib lib L).commands.length = 0 := by
      rw [hc]; rfl
    exact tilesFrom_eq_nil _ 0 (hlen ▸ ht)

/-- Witness for `C1_segment_invariants`: `demoLayer` (one one-line hatch
whose style resolves) under `demoLib`. -/
theorem C1_segment_invariants_witness :
    (∀ h ∈ marc.demoLayer.hatches, h.lines ≠ [] ∧
      (marc.resolveStyle marc.demoLib h.tag.type).isSome) ∧
    ((marc.builtBlock marc.defCalib marc.demoLib
        marc.demoLayer).parameterSegments ≠ [] →
      marc.coveredSet (marc.builtBlock marc.defCalib marc.demoLib
          marc.demoLayer).parameterSegments =
        Finset.range (marc.builtBlock marc.defCalib marc.demoLib
          marc.demoLayer).commands.length) :=
  ⟨by decide,
   (C1_segment_invariants marc.defCalib marc.demoLib marc.demoLayer
     (by decide) (by decide) (by decide)).2.2.1⟩
